import Mathlib

/-!
Verification development for the lore.emotion Trust & Safety pipeline.

The repository's backend is specified in its design documents; the
anonymization, moderation, crisis, queue-routing, similarity and
purge/export components are embedded here as executable Lean functions,
and the frontend auth pages (signup, signin, email confirmation) are
embedded as pure handler functions over explicit effect traces.
-/

namespace LoreEmotion

set_option maxRecDepth 4000

/-! ## SHA-256 (executable, over byte lists)

Faithful executable SHA-256, needed to evaluate
`AuthService.generate_anonymous_id` from the repository's auth service,
which computes `hashlib.sha256(f"{email}{salt}".encode()).hexdigest()[:16]`.
-/

def w32 : Nat := 4294967296

def rotr32 (n x : Nat) : Nat := ((x >>> n) ||| (x <<< (32 - n))) % w32

def bigSigma0 (x : Nat) : Nat := (rotr32 2 x) ^^^ (rotr32 13 x) ^^^ (rotr32 22 x)

def bigSigma1 (x : Nat) : Nat := (rotr32 6 x) ^^^ (rotr32 11 x) ^^^ (rotr32 25 x)

def smallSigma0 (x : Nat) : Nat := (rotr32 7 x) ^^^ (rotr32 18 x) ^^^ (x >>> 3)

def smallSigma1 (x : Nat) : Nat := (rotr32 17 x) ^^^ (rotr32 19 x) ^^^ (x >>> 10)

def chOp (x y z : Nat) : Nat := (x &&& y) ^^^ ((x ^^^ 4294967295) &&& z)

def majOp (x y z : Nat) : Nat := (x &&& y) ^^^ (x &&& z) ^^^ (y &&& z)

/-- The 64 SHA-256 round constants, in decimal. -/
def sha256K : List Nat :=
  [1116352408, 1899447441, 3049323471, 3921009573, 961987163, 1508970993,
   2453635748, 2870763221, 3624381080, 310598401, 607225278, 1426881987,
   1925078388, 2162078206, 2614888103, 3248222580, 3835390401, 4022224774,
   264347078, 604807628, 770255983, 1249150122, 1555081692, 1996064986,
   2554220882, 2821834349, 2952996808, 3210313671, 3336571891, 3584528711,
   113926993, 338241895, 666307205, 773529912, 1294757372, 1396182291,
   1695183700, 1986661051, 2177026350, 2456956037, 2730485921, 2820302411,
   3259730800, 3345764771, 3516065817, 3600352804, 4094571909, 275423344,
   430227734, 506948616, 659060556, 883997877, 958139571, 1322822218,
   1537002063, 1747873779, 1955562222, 2024104815, 2227730452, 2361852424,
   2428436474, 2756734187, 3204031479, 3329325298]

/-- Pad a byte message per SHA-256: append 0x80, zeros, then the 64-bit
big-endian bit length, reaching a multiple of 64 bytes. -/
def sha256Pad (msg : List Nat) : List Nat :=
  let len := msg.length
  let zeros := (120 - (len + 1) % 64) % 64
  let lenBits := len * 8
  msg ++ [0x80] ++ List.replicate zeros 0 ++
    (List.range 8).map (fun i => (lenBits >>> (8 * (7 - i))) % 256)

/-- Big-endian assembly of consecutive 4-byte groups into 32-bit words. -/
def bytesToWords (l : List Nat) : List Nat :=
  (List.range (l.length / 4)).map (fun i =>
    ((l.getD (4 * i) 0) <<< 24) ||| ((l.getD (4 * i + 1) 0) <<< 16) |||
    ((l.getD (4 * i + 2) 0) <<< 8) ||| (l.getD (4 * i + 3) 0))

/-- Split a word list into 16-word chunks. -/
def chunkWords (ws : List Nat) : List (List Nat) :=
  (List.range (ws.length / 16)).map (fun i => (ws.drop (16 * i)).take 16)

/-- Extend a 16-word chunk to the 64-word message schedule. -/
def msgSchedule (w16 : List Nat) : List Nat :=
  (List.range 48).foldl (fun w _t =>
    let n := w.length
    w ++ [(smallSigma1 (w.getD (n - 2) 0) + w.getD (n - 7) 0 +
           smallSigma0 (w.getD (n - 15) 0) + w.getD (n - 16) 0) % w32]) w16

structure Sha256State where
  a : Nat
  b : Nat
  c : Nat
  d : Nat
  e : Nat
  f : Nat
  g : Nat
  h : Nat

def compressStep (st : Sha256State) (kw : Nat × Nat) : Sha256State :=
  let t1 := (st.h + bigSigma1 st.e + chOp st.e st.f st.g + kw.1 + kw.2) % w32
  let t2 := (bigSigma0 st.a + majOp st.a st.b st.c) % w32
  { a := (t1 + t2) % w32, b := st.a, c := st.b, d := st.c,
    e := (st.d + t1) % w32, f := st.e, g := st.f, h := st.g }

def compressChunk (hs : Sha256State) (chunk : List Nat) : Sha256State :=
  let st := (sha256K.zip (msgSchedule chunk)).foldl compressStep hs
  { a := (hs.a + st.a) % w32, b := (hs.b + st.b) % w32, c := (hs.c + st.c) % w32,
    d := (hs.d + st.d) % w32, e := (hs.e + st.e) % w32, f := (hs.f + st.f) % w32,
    g := (hs.g + st.g) % w32, h := (hs.h + st.h) % w32 }

/-- The eight SHA-256 initial hash values, in decimal. -/
def sha256Start : Sha256State :=
  ⟨1779033703, 3144134277, 1013904242, 2773480762,
   1359893119, 2600822924, 528734635, 1541459225⟩

def sha256Words (msg : List Nat) : List Nat :=
  let fin := (chunkWords (bytesToWords (sha256Pad msg))).foldl compressChunk sha256Start
  [fin.a, fin.b, fin.c, fin.d, fin.e, fin.f, fin.g, fin.h]

def hexChar (n : Nat) : Char := ("0123456789abcdef" : String).data.getD n '0'

def wordToHex (w : Nat) : List Char :=
  (List.range 8).map (fun i => hexChar ((w >>> (4 * (7 - i))) % 16))

/-- Lowercase hex digest of the SHA-256 of a byte message, as
`hashlib.sha256(...).hexdigest()` returns it. -/
def sha256Hexdigest (msg : List Nat) : String :=
  String.mk (((sha256Words msg).map wordToHex).flatten)

/-! ## C1 — AuthService.generate_anonymous_id

Embedding of the auth service's id derivation:

    salt = secrets.token_bytes(32)
    hash_input = f"(email)(salt)".encode()
    anonymous_id = hashlib.sha256(hash_input).hexdigest()[:16]
    return f"anon_(anonymous_id)"

The fresh 32-byte random salt drawn on each call, together with its
textual rendering inside the f-string, is made explicit as the `saltText`
parameter; the function is deterministic in `email` and `saltText`.
Nothing is keyed and the salt is never stored or looked up, so each call
sees an independently drawn `saltText`.
-/

def strBytes (s : String) : List Nat := s.data.map Char.toNat

def generate_anonymous_id (email : String) (saltText : String) : String :=
  "anon_" ++ String.mk ((sha256Hexdigest (strBytes (email ++ saltText))).data.take 16)

/-! ## Shared data model for the moderation pipeline

The backend pipeline exists in the repository only as its design
documents (data model, state machines and SLA table), so the definitions
below are modelled from the spec, as marked on each. -/

/-- Modelled from the spec: the `RiskAssessment.severity` enumeration
(none, low, medium, high, critical); the pipeline source implementing it
is missing from the repository. -/
inductive Severity where
  | none
  | low
  | medium
  | high
  | critical
deriving DecidableEq, Repr

/-- Modelled from the spec: the Stage 3 human-review SLA table
(critical 1 hour, high 4 hours, medium 24 hours, low 72 hours),
in seconds; the queue-router source is missing from the repository. -/
def slaSeconds : Severity → Nat
  | .critical => 3600
  | .high => 4 * 3600
  | .medium => 24 * 3600
  | .low => 72 * 3600
  | .none => 72 * 3600

/-- Modelled from the spec: priority rank within a queue, primary
ordering by severity (lower rank is served first). -/
def priorityRank : Severity → Nat
  | .critical => 0
  | .high => 1
  | .medium => 2
  | .low => 3
  | .none => 4

/-- Modelled from the spec: the QueueItem record created by the Queue
Router; its source is missing from the repository. -/
structure QueueItem where
  post_id : Nat
  queue_name : String
  priority_rank : Nat
  enqueued_at : Nat
  sla_deadline : Nat
  assigned_moderator : Option String
deriving DecidableEq, Repr

/-- Modelled from the spec: the Queue Router contract
`Route(post_id, severity, signals) -> QueueItem`, with
`sla_deadline` derived from severity per the Stage 3 SLA table; a
severity of `none` needs no human review and is not routed. The
router source is missing from the repository. -/
def Route (post_id : Nat) (severity : Severity) (signals : List String)
    (now : Nat) : Option QueueItem :=
  match severity with
  | .none => Option.none
  | s =>
    some { post_id := post_id
           queue_name := if signals.contains "crisis" then "crisis-expedited" else "human-review"
           priority_rank := priorityRank s
           enqueued_at := now
           sla_deadline := now + slaSeconds s
           assigned_moderator := Option.none }

/-! ## C2 — crisis detection flow as a transition system

The crisis flow exists in the repository only as the numbered
"Crisis Detection Flow" list and the §4.2–4.3 state machines, so the
transition system below is modelled from the spec. -/

/-- Modelled from the spec: `Post.moderation_state` machine
(`submitted → stage1_passed → stage2_scored → queued →
(approved, rejected, escalated)`). -/
inductive ModerationState where
  | submitted
  | stage1Passed
  | stage2Scored
  | queued
  | approved
  | rejected
  | escalated
deriving DecidableEq, Repr

/-- Modelled from the spec: `CrisisEvent.escalation_state` machine
(`detected → (user_acknowledged, moderator_alerted) → resolved`). -/
inductive EscalationState where
  | detected
  | userAcknowledged
  | moderatorAlerted
  | resolved
deriving DecidableEq, Repr

structure Post where
  post_id : Nat
  content : String
  moderation_state : ModerationState
  severity : Severity
deriving DecidableEq, Repr

structure CrisisEvent where
  post_id : Nat
  escalation_state : EscalationState
deriving DecidableEq, Repr

/-- Does `needle` occur as a contiguous run inside `hay`? -/
def containsSub (needle hay : List Char) : Bool :=
  (List.range (hay.length + 1)).any (fun i => needle.isPrefixOf (hay.drop i))

/-- Modelled from the spec: the known high-recall crisis phrase list the
Stage 1 crisis detector matches against; the detector source is missing
from the repository. -/
def crisisPhrases : List String := ["end my life", "kill myself", "suicide"]

def matchesCrisisPhrase (content : String) : Bool :=
  crisisPhrases.any (fun ph => containsSub ph.data content.data)

/-- Observable pipeline events, appended in order of occurrence. -/
inductive Event where
  | crisisDetected (post_id : Nat)
  | stage2Scored (post_id : Nat)
  | queueItemCreated (post_id : Nat)
  | crisisReleased (post_id : Nat)
  | crisisResolved (post_id : Nat)
deriving DecidableEq, Repr

structure PipelineState where
  posts : List Post
  crisisEvents : List CrisisEvent
  queueItems : List QueueItem
  log : List Event
deriving Repr

def initialPipelineState : PipelineState := ⟨[], [], [], []⟩

/-- Pipeline actions: a user submission, the asynchronous Stage 2 pass,
queue routing, the 5-minute crisis acknowledgment timeout, and explicit
moderator release/resolution of a crisis hold. -/
inductive PipelineAction where
  | submit (post_id : Nat) (content : String) (now : Nat)
  | runStage2 (post_id : Nat) (severity : Severity)
  | routeToQueue (post_id : Nat) (now : Nat)
  | acknowledgeTimeout (post_id : Nat) (now : Nat)
  | releaseCrisis (post_id : Nat)
  | resolveCrisis (post_id : Nat) (approve : Bool)

def postExists (s : PipelineState) (pid : Nat) : Bool :=
  s.posts.any (fun p => p.post_id == pid)

def findPost (s : PipelineState) (pid : Nat) : Option Post :=
  s.posts.find? (fun p => p.post_id == pid)

def findCrisis (s : PipelineState) (pid : Nat) : Option CrisisEvent :=
  s.crisisEvents.find? (fun ce => ce.post_id == pid)

def setPostState (pid : Nat) (m : ModerationState) (p : Post) : Post :=
  if p.post_id == pid then { p with moderation_state := m } else p

def scorePost (pid : Nat) (sev : Severity) (p : Post) : Post :=
  if p.post_id == pid then { p with moderation_state := .stage2Scored, severity := sev } else p

def setCrisisState (pid : Nat) (e : EscalationState) (ce : CrisisEvent) : CrisisEvent :=
  if ce.post_id == pid then { ce with escalation_state := e } else ce

/-- Modelled from the spec: one step of the Trust & Safety pipeline.
The backend source is missing from the repository; this follows §4.2–4.4
and the README "Crisis Detection Flow": a submission matching a crisis
phrase is held (`escalated`) with a `CrisisEvent` in state `detected`
and bypasses queueing; Stage 2 scores only `stage1_passed` posts; the
router queues only `stage2_scored` posts; the acknowledgment timeout
moves a `detected` crisis to `moderator_alerted` and creates the
expedited QueueItem; moderators explicitly release (back into the normal
flow) or resolve (approve/reject) a crisis hold. -/
def pipelineStep (s : PipelineState) (act : PipelineAction) : PipelineState :=
  match act with
  | .submit pid content _now =>
    if postExists s pid then s
    else if matchesCrisisPhrase content then
      { s with posts := s.posts ++ [⟨pid, content, .escalated, .none⟩],
               crisisEvents := s.crisisEvents ++ [⟨pid, .detected⟩],
               log := s.log ++ [.crisisDetected pid] }
    else
      { s with posts := s.posts ++ [⟨pid, content, .stage1Passed, .none⟩] }
  | .runStage2 pid sev =>
    match findPost s pid with
    | some p =>
      if p.moderation_state == .stage1Passed then
        { s with posts := s.posts.map (scorePost pid sev),
                 log := s.log ++ [.stage2Scored pid] }
      else s
    | Option.none => s
  | .routeToQueue pid now =>
    match findPost s pid with
    | some p =>
      if p.moderation_state == .stage2Scored then
        match Route pid p.severity [] now with
        | some item =>
          { s with posts := s.posts.map (setPostState pid .queued),
                   queueItems := s.queueItems ++ [item],
                   log := s.log ++ [.queueItemCreated pid] }
        | Option.none => s
      else s
    | Option.none => s
  | .acknowledgeTimeout pid now =>
    match findCrisis s pid with
    | some ce =>
      if ce.escalation_state == .detected then
        match Route pid .critical ["crisis"] now with
        | some item =>
          { s with crisisEvents := s.crisisEvents.map (setCrisisState pid .moderatorAlerted),
                   queueItems := s.queueItems ++ [item],
                   log := s.log ++ [.queueItemCreated pid] }
        | Option.none => s
      else s
    | Option.none => s
  | .releaseCrisis pid =>
    match findCrisis s pid with
    | some ce =>
      if ce.escalation_state == .resolved then s
      else
        { s with crisisEvents := s.crisisEvents.map (setCrisisState pid .resolved),
                 posts := s.posts.map (setPostState pid .stage1Passed),
                 log := s.log ++ [.crisisReleased pid] }
    | Option.none => s
  | .resolveCrisis pid approve =>
    match findCrisis s pid with
    | some ce =>
      if ce.escalation_state == .resolved then s
      else
        { s with crisisEvents := s.crisisEvents.map (setCrisisState pid .resolved),
                 posts := s.posts.map (setPostState pid (if approve then .approved else .rejected)),
                 log := s.log ++ [.crisisResolved pid] }
    | Option.none => s

def runPipeline (acts : List PipelineAction) : PipelineState :=
  acts.foldl pipelineStep initialPipelineState

/-- `pid` names a stored post whose content matches a crisis phrase. -/
def IsCrisisPost (posts : List Post) (pid : Nat) : Prop :=
  ∃ p ∈ posts, p.post_id = pid ∧ matchesCrisisPhrase p.content = true

instance (posts : List Post) (pid : Nat) : Decidable (IsCrisisPost posts pid) := by
  unfold IsCrisisPost; infer_instance

/-- Every QueueItem-creation entry for a crisis post is strictly preceded
in the log by that post's crisis-detection entry. -/
def QueueAfterDetect (posts : List Post) (log : List Event) : Prop :=
  ∀ (pid j : Nat), log[j]? = some (Event.queueItemCreated pid) → IsCrisisPost posts pid →
    ∃ i, i < j ∧ log[i]? = some (Event.crisisDetected pid)

/-- Every Stage-2 scoring entry for a crisis post is strictly preceded in
the log by an explicit release or resolution of the crisis hold. -/
def ScoredAfterRelease (posts : List Post) (log : List Event) : Prop :=
  ∀ (pid j : Nat), log[j]? = some (Event.stage2Scored pid) → IsCrisisPost posts pid →
    ∃ i, i < j ∧ (log[i]? = some (Event.crisisReleased pid) ∨
                  log[i]? = some (Event.crisisResolved pid))

/-- The inductive invariant of the crisis pipeline: referential
integrity of crisis events and log entries, per-pid uniqueness of posts,
the crisis hold discipline, and the two ordering properties of claim C2. -/
structure PipelineInv (s : PipelineState) : Prop where
  uniq : ∀ p ∈ s.posts, ∀ q ∈ s.posts, p.post_id = q.post_id → p = q
  crisisRef : ∀ ce ∈ s.crisisEvents, ∃ p ∈ s.posts, p.post_id = ce.post_id
  queueRef : ∀ (pid : Nat), Event.queueItemCreated pid ∈ s.log →
    ∃ p ∈ s.posts, p.post_id = pid
  scoredRef : ∀ (pid : Nat), Event.stage2Scored pid ∈ s.log →
    ∃ p ∈ s.posts, p.post_id = pid
  detectLogged : ∀ p ∈ s.posts, matchesCrisisPhrase p.content = true →
    Event.crisisDetected p.post_id ∈ s.log
  heldOrReleased : ∀ p ∈ s.posts, matchesCrisisPhrase p.content = true →
    p.moderation_state = ModerationState.escalated ∨
      Event.crisisReleased p.post_id ∈ s.log ∨ Event.crisisResolved p.post_id ∈ s.log
  qad : QueueAfterDetect s.posts s.log
  sar : ScoredAfterRelease s.posts s.log

/-- A concrete crisis run: a submission matching a crisis phrase, whose
acknowledgment window then expires, producing the expedited QueueItem. -/
def demoCrisisActs : List PipelineAction :=
  [PipelineAction.submit 1 "i just want to end my life" 0,
   PipelineAction.acknowledgeTimeout 1 300]

/-! ## C5 — rate limiting of new posts

The limiter exists in the repository only as the
`RATE_LIMITS = ('new_post': (10, 3600), ...)` table and the spec's
sharded-counter design note, so the store below is modelled from the
spec. -/

structure UserPost where
  post_id : Nat
  anonymous_id : String
  scrubbed_content : String
deriving DecidableEq, Repr

/-- Modelled from the spec: the limiter's sharded per-anonymous_id
submission counters (kept as timestamped entries with explicit expiry)
together with the content store the accepted Post lands in; the limiter
source is missing from the repository. -/
structure RateLimitedStore where
  submissions : List (String × Nat)
  posts : List UserPost
deriving DecidableEq, Repr

/-- RATE_LIMITS for new_post: 10 posts per 3600 seconds. -/
def newPostLimit : Nat := 10

def newPostWindowSeconds : Nat := 3600

/-- How many submissions by `anon` are inside the hour window ending at
`now`. -/
def recentSubmissionCount (st : RateLimitedStore) (anon : String) (now : Nat) : Nat :=
  (st.submissions.filter
    (fun sub => sub.1 == anon && now < sub.2 + newPostWindowSeconds)).length

inductive SubmitOutcome where
  | accepted (post_id : Nat)
  | rateLimitExceeded
deriving DecidableEq, Repr

/-- Modelled from the spec: the rate-limiter gate in front of
Anonymization; a submission over the 10-per-hour limit is rejected with
`RateLimitExceeded` and mutates nothing. -/
def submitNewPost (st : RateLimitedStore) (anon content : String)
    (pid now : Nat) : RateLimitedStore × SubmitOutcome :=
  if newPostLimit ≤ recentSubmissionCount st anon now then
    (st, SubmitOutcome.rateLimitExceeded)
  else
    ({ submissions := (anon, now) :: st.submissions,
       posts := ⟨pid, anon, content⟩ :: st.posts },
     SubmitOutcome.accepted pid)

def demoRateStore : RateLimitedStore :=
  { submissions := List.replicate 10 ("anon_a", 0), posts := [] }

/-! ## C7 — PurgeIdentity and ExportUserData

The account-deletion and data-export flows exist in the repository only
as the user API endpoint list and the spec's §6 contracts, so the store
and both operations are modelled from the spec. -/

structure RiskAssessmentRec where
  post_id : Nat
  severity : Severity
  scored_at : Nat
deriving DecidableEq, Repr

/-- Modelled from the spec: the content store holding Posts,
RiskAssessments and QueueItems, linked to users only through
anonymous_id on the Post; the backend source is missing from the
repository. -/
structure ContentStore where
  posts : List UserPost
  assessments : List RiskAssessmentRec
  queueItems : List QueueItem
deriving DecidableEq, Repr

/-- The post_ids belonging to `anon`: the linkage a RiskAssessment or
QueueItem reference to that user must travel through. -/
def postIdsOf (st : ContentStore) (anon : String) : List Nat :=
  (st.posts.filter (fun p => p.anonymous_id == anon)).map (fun p => p.post_id)

/-- Modelled from the spec: `PurgeIdentity(anonymous_id)` cascades a
hard delete over the user's Posts and over the RiskAssessments and
QueueItems referencing them; its source is missing from the
repository. -/
def PurgeIdentity (st : ContentStore) (anon : String) : ContentStore :=
  let pids := postIdsOf st anon
  { posts := st.posts.filter (fun p => !(p.anonymous_id == anon)),
    assessments := st.assessments.filter (fun a => !(pids.contains a.post_id)),
    queueItems := st.queueItems.filter (fun q => !(pids.contains q.post_id)) }

/-- Modelled from the spec: `ExportUserData(anonymous_id)` returns all
Posts and RiskAssessments linked to that anonymous_id; its source is
missing from the repository. -/
def ExportUserData (st : ContentStore) (anon : String) :
    List UserPost × List RiskAssessmentRec :=
  let pids := postIdsOf st anon
  (st.posts.filter (fun p => p.anonymous_id == anon),
   st.assessments.filter (fun a => pids.contains a.post_id))

def demoContentStore : ContentStore :=
  { posts := [⟨1, "anon_a", "[PHONE] keeps calling me"⟩, ⟨2, "anon_b", "a calmer week"⟩],
    assessments := [⟨1, Severity.medium, 50⟩, ⟨2, Severity.low, 60⟩],
    queueItems := [⟨1, "human-review", 2, 70, 70 + 24 * 3600, Option.none⟩] }

/-! ## C3 — k-anonymity gating of similarity results and listings

The README gives `SimilarPostFinder.find_similar` (vector search with
`has_positive_resolution`, `moderation_approved` and a score threshold)
and asserts the k-anonymity guard as a bullet; the guard itself has no
source in the repository, so the gate is modelled from the spec (group
key {tags, coarse time bucket, coarse locale}, at least K distinct
anonymous_ids, K configurable with default 5, applied before a post
reaches any public surface). Embedding similarity scores are external
model outputs; the score function is a parameter. -/

structure DiscoveryPost where
  post_id : Nat
  anonymous_id : String
  tags : List String
  time_bucket : Nat
  locale : String
  moderation_approved : Bool
  has_positive_resolution : Bool
deriving DecidableEq, Repr

/-- The discovery store with its configurable K (default 5). -/
structure DiscoveryIndex where
  posts : List DiscoveryPost
  k : Nat
deriving DecidableEq, Repr

def defaultK : Nat := 5

def sameGroup (p q : DiscoveryPost) : Bool :=
  q.tags == p.tags && q.time_bucket == p.time_bucket && q.locale == p.locale

/-- Distinct anonymous_ids in the {tags, time bucket, locale} group of
`p`. -/
def groupAnonCount (st : DiscoveryIndex) (p : DiscoveryPost) : Nat :=
  (((st.posts.filter (sameGroup p)).map (fun q => q.anonymous_id)).dedup).length

def kAnonOk (st : DiscoveryIndex) (p : DiscoveryPost) : Bool :=
  decide (st.k ≤ groupAnonCount st p)

/-- Modelled from the spec: only moderation-approved posts meeting the
k-anonymity gate are indexed for public surfaces; posts failing the gate
stay in the store, withheld. -/
def indexedPosts (st : DiscoveryIndex) : List DiscoveryPost :=
  st.posts.filter (fun p => p.moderation_approved && kAnonOk st p)

/-- Embedding of `SimilarPostFinder.find_similar` over the gated index:
vector search over indexed posts with the README's two filters and
top_k = 10, then the similarity-threshold filter. -/
def find_similar (st : DiscoveryIndex) (sim : DiscoveryPost → Nat)
    (threshold : Nat) : List DiscoveryPost :=
  (((indexedPosts st).filter
      (fun p => p.has_positive_resolution && p.moderation_approved)).take 10).filter
    (fun p => threshold < sim p)

/-- Any public listing serves from the gated index. -/
def publicListing (st : DiscoveryIndex) : List DiscoveryPost :=
  indexedPosts st

/-- A store whose "anxiety" group holds five distinct anonymous_ids plus
one post in a group of its own. -/
def demoDiscoveryIndex : DiscoveryIndex :=
  { posts :=
      [⟨1, "anon_a", ["anxiety"], 0, "us", true, true⟩,
       ⟨2, "anon_b", ["anxiety"], 0, "us", true, true⟩,
       ⟨3, "anon_c", ["anxiety"], 0, "us", true, true⟩,
       ⟨4, "anon_d", ["anxiety"], 0, "us", true, true⟩,
       ⟨5, "anon_e", ["anxiety"], 0, "us", true, true⟩,
       ⟨6, "anon_f", ["grief"], 1, "uk", true, true⟩],
    k := defaultK }

def demoSmallGroupPost : DiscoveryPost := ⟨6, "anon_f", ["grief"], 1, "uk", true, true⟩

/-! ## C6 — idempotence of PII scrubbing

`AnonymizationService.scrub_pii` has no body in the repository; the
redaction pass below is modelled from the spec: each detected PII token
(emails, phone numbers, full names, street addresses, government ids) is
replaced with a typed placeholder, the surrounding text is left
untouched. Content is handled token-wise over its space-separated
words. -/

def emailPlaceholder : List Char := ("[EMAIL]" : String).data

def phonePlaceholder : List Char := ("[PHONE]" : String).data

def govIdPlaceholder : List Char := ("[GOVID]" : String).data

def namePlaceholder : List Char := ("[NAME]" : String).data

def addressPlaceholder : List Char := ("[ADDRESS]" : String).data

def digitCount (w : List Char) : Nat := (w.filter Char.isDigit).length

/-- Modelled from the spec: the full-name lexicon the name detector
matches tokens against. -/
def knownNames : List (List Char) :=
  (["John", "Jane", "Alice", "Michael", "Maria"] : List String).map String.data

/-- Modelled from the spec: street-address indicator tokens. -/
def streetSuffixes : List (List Char) :=
  (["Street", "Avenue", "Road", "Boulevard", "Lane"] : List String).map String.data

/-- Modelled from the spec: the per-token PII detector; returns the
typed placeholder of the first matching category. -/
def piiPlaceholder (w : List Char) : Option (List Char) :=
  if '@' ∈ w ∧ '.' ∈ w then some emailPlaceholder
  else if digitCount w = 9 ∧ '-' ∈ w then some govIdPlaceholder
  else if 7 ≤ digitCount w then some phonePlaceholder
  else if w ∈ streetSuffixes then some addressPlaceholder
  else if w ∈ knownNames then some namePlaceholder
  else none

def scrubToken (w : List Char) : List Char := (piiPlaceholder w).getD w

/-- Modelled from the spec: the PII-detection-and-redaction pass over a
content text, replacing each detected token with its placeholder. -/
def scrubChars (cs : List Char) : List Char :=
  [' '].intercalate ((cs.splitOn ' ').map scrubToken)

def scrub_pii (s : String) : String := String.mk (scrubChars s.data)

/-! ## Frontend auth pages (src/frontend, src/unnamed/part_002)

The three submit handlers are pure up to the `authService` promise
outcome and their React state/DOM effects; each is embedded as a
function from the form state and the supplied promise outcome to the
ordered list of effects (state updates, external calls, navigation) it
performs, or to the resulting state. -/

/-- JavaScript `a || b` over an optional string field: the default wins
exactly on the falsy values `undefined` and `""`. -/
def jsOrElse (v : Option String) (dflt : String) : String :=
  match v with
  | some t => if t = "" then dflt else t
  | Option.none => dflt

/-! ## C8 — sign-up page validation -/

/-- Outcome of the `authService.signUp` promise as the sign-up page
observes it. -/
inductive SignUpResult where
  | resolved (success : Bool)
  | thrown (message : Option String)

inductive SignUpEffect where
  | setErrorEff (msg : String)
  | setLoadingEff (b : Bool)
  | signUpCall (email password : String)
  | setSuccessEff
  | scheduleRedirect (path : String)
deriving DecidableEq, Repr

/-- Embedding of `SignUpPage.handleSubmit`
(src/frontend/app/auth/signup/page.tsx, lines 19-53): the ordered state
updates and external calls of one submission. -/
def signup_handleSubmit (email password confirmPassword : String)
    (result : SignUpResult) : List SignUpEffect :=
  [SignUpEffect.setErrorEff "", SignUpEffect.setLoadingEff true] ++
  (if password ≠ confirmPassword then
    [SignUpEffect.setErrorEff "Passwords do not match",
     SignUpEffect.setLoadingEff false]
  else if password.length < 8 then
    [SignUpEffect.setErrorEff "Password must be at least 8 characters long",
     SignUpEffect.setLoadingEff false]
  else
    [SignUpEffect.signUpCall email password] ++
    (match result with
     | SignUpResult.resolved true =>
         [SignUpEffect.setSuccessEff, SignUpEffect.scheduleRedirect "/auth/confirm"]
     | SignUpResult.resolved false => []
     | SignUpResult.thrown msg =>
         [SignUpEffect.setErrorEff
           (jsOrElse msg "Registration failed. Please try again.")]) ++
    [SignUpEffect.setLoadingEff false])

/-! ## C9 — email-confirmation page code gating -/

structure ConfirmPageState where
  code : String
  loading : Bool
deriving DecidableEq, Repr

/-- The submit button's `disabled` attribute in src/unnamed/part_002:
`loading || code.length !== 6`. -/
def confirmSubmitDisabled (st : ConfirmPageState) : Bool :=
  st.loading || decide (st.code.length ≠ 6)

/-- The code input's onChange under `maxLength = 6`: the DOM caps the
field value at 6 characters. -/
def confirmSetCode (st : ConfirmPageState) (input : String) : ConfirmPageState :=
  { st with code := String.mk (input.data.take 6) }

inductive ConfirmResult where
  | resolved
  | thrown (message : Option String)

inductive ConfirmEffect where
  | confirmSignUpCall (email code : String)
  | setSuccessEff
  | scheduleRedirect (path : String)
  | setErrorEff (msg : String)
  | setLoadingEff (b : Bool)
deriving DecidableEq, Repr

/-- Embedding of `ConfirmPage.handleSubmit` (src/unnamed/part_002,
lines 19-37). -/
def confirm_handleSubmit (email : String) (st : ConfirmPageState)
    (result : ConfirmResult) : List ConfirmEffect :=
  [ConfirmEffect.setErrorEff "", ConfirmEffect.setLoadingEff true,
   ConfirmEffect.confirmSignUpCall email st.code] ++
  (match result with
   | ConfirmResult.resolved =>
       [ConfirmEffect.setSuccessEff, ConfirmEffect.scheduleRedirect "/auth/signin"]
   | ConfirmResult.thrown msg =>
       [ConfirmEffect.setErrorEff
         (jsOrElse msg "Invalid verification code. Please try again.")]) ++
  [ConfirmEffect.setLoadingEff false]

/-- Submission through the form: the handler fires only via the submit
button, which is inert while `disabled`. -/
def confirm_formSubmit (email : String) (st : ConfirmPageState)
    (result : ConfirmResult) : List ConfirmEffect :=
  if confirmSubmitDisabled st then [] else confirm_handleSubmit email st result

/-! ## C10 — sign-in page token storage -/

structure SignInPageState where
  errorMsg : String
  loading : Bool
deriving DecidableEq, Repr

structure BrowserState where
  accessTokenStorage : Option String
  route : String
deriving DecidableEq, Repr

/-- Outcome of the `authService.signIn` promise as the sign-in page
observes it. -/
inductive SignInResult where
  | resolved (success : Bool) (accessToken : Option String)
  | thrown (errorField : Option String)

/-- JavaScript truthiness of `result.accessToken`. -/
def jsTruthy : Option String → Bool
  | Option.none => false
  | some t => decide (t ≠ "")

/-- The handler's outward actions: a localStorage write or a router
navigation. -/
inductive SignInEffect where
  | localStorageSetItem (key value : String)
  | routerPush (path : String)
deriving DecidableEq, Repr

/-- Embedding of `SignInPage.handleSubmit`
(src/frontend/app/auth/signin/page.tsx, lines 17-39): the page state and
browser state (localStorage key accessToken, current route) after one
submission, paired with the ordered outward actions it performed. -/
def signin_handleSubmit (ps : SignInPageState) (bs : BrowserState)
    (result : SignInResult) : (SignInPageState × BrowserState) × List SignInEffect :=
  let ps1 : SignInPageState := { ps with errorMsg := "", loading := true }
  let stepped : (SignInPageState × BrowserState) × List SignInEffect :=
    match result with
    | SignInResult.resolved success token =>
      if success then
        let writes : List SignInEffect :=
          match token with
          | some t =>
            if t = "" then [] else [SignInEffect.localStorageSetItem "accessToken" t]
          | Option.none => []
        let bs1 := if jsTruthy token then { bs with accessTokenStorage := token } else bs
        ((ps1, { bs1 with route := "/dashboard" }),
         writes ++ [SignInEffect.routerPush "/dashboard"])
      else ((ps1, bs), [])
    | SignInResult.thrown err =>
      (({ ps1 with errorMsg := jsOrElse err "Invalid email or password. Please try again." },
        bs), [])
  (({ stepped.1.1 with loading := false }, stepped.1.2), stepped.2)

def demoSignInPageState : SignInPageState := ⟨"", false⟩

def demoBrowserState : BrowserState := ⟨Option.none, "/auth/signin"⟩

/-! ## Theorems -/

/-- SHA-256 test vector: the digest of the ASCII message "abc". -/
theorem sha256_abc_vector :
    sha256Hexdigest (("abc" : String).data.map Char.toNat) =
      "ba7816bf8f01cfea414140de5dae2223b00361a396177a9cb410ff61f20015ad" := by
  decide

/-- C1: the code violates per-user stability of the pseudonym. The claim
says two calls for the same raw identity return the same anonymous_id;
`generate_anonymous_id` hashes the email together with a salt drawn
freshly on every call, so two calls of the code for the identity
"user@example.com" whose fresh salts render differently produce
different anonymous_ids. -/
theorem anonymous_id_not_stable_across_salts :
    generate_anonymous_id "user@example.com" "A" ≠
      generate_anonymous_id "user@example.com" "B" := by
  decide

theorem mem_index {α : Type} {l : List α} {a : α} (h : a ∈ l) :
    ∃ i, i < l.length ∧ l[i]? = some a := by
  obtain ⟨i, hi, he⟩ := List.getElem_of_mem h
  exact ⟨i, hi, by simp [List.getElem?_eq_getElem hi, he]⟩

theorem index_lt {α : Type} {l : List α} {i : Nat} {a : α} (h : l[i]? = some a) :
    i < l.length := by
  by_contra hc
  simp [List.getElem?_eq_none (Nat.not_lt.mp hc)] at h

theorem getElem?_append_lift {α : Type} {l : List α} (t : List α) {i : Nat} {a : α}
    (h : l[i]? = some a) : (l ++ t)[i]? = some a := by
  rw [List.getElem?_append_left (index_lt h)]
  exact h

theorem getElem?_append_single {α : Type} {l : List α} {e : α} {j : Nat} {x : α}
    (h : (l ++ [e])[j]? = some x) :
    (j < l.length ∧ l[j]? = some x) ∨ (j = l.length ∧ x = e) := by
  by_cases hj : j < l.length
  · exact Or.inl ⟨hj, by rw [List.getElem?_append_left hj] at h; exact h⟩
  · right
    have hj' : l.length ≤ j := Nat.not_lt.mp hj
    rw [List.getElem?_append_right hj'] at h
    rcases hk : j - l.length with _ | n
    · rw [hk] at h
      simp at h
      exact ⟨Nat.le_antisymm (Nat.le_of_sub_eq_zero hk) hj', h.symm⟩
    · rw [hk] at h
      simp at h

theorem qad_mono {posts posts' : List Post} {log : List Event}
    (hp : ∀ pid, IsCrisisPost posts' pid → IsCrisisPost posts pid)
    (h : QueueAfterDetect posts log) : QueueAfterDetect posts' log := by
  unfold QueueAfterDetect at h ⊢
  exact fun pid j hj hc => h pid j hj (hp pid hc)

theorem sar_mono {posts posts' : List Post} {log : List Event}
    (hp : ∀ pid, IsCrisisPost posts' pid → IsCrisisPost posts pid)
    (h : ScoredAfterRelease posts log) : ScoredAfterRelease posts' log := by
  unfold ScoredAfterRelease at h ⊢
  exact fun pid j hj hc => h pid j hj (hp pid hc)

theorem qad_append {posts : List Post} {log : List Event} {e : Event}
    (h : QueueAfterDetect posts log)
    (he : ∀ pid, e = Event.queueItemCreated pid → IsCrisisPost posts pid →
      Event.crisisDetected pid ∈ log) :
    QueueAfterDetect posts (log ++ [e]) := by
  unfold QueueAfterDetect at h ⊢
  intro pid j hj hc
  rcases getElem?_append_single hj with ⟨hlt, hold⟩ | ⟨hEq, hx⟩
  · obtain ⟨i, hij, hi⟩ := h pid j hold hc
    exact ⟨i, hij, getElem?_append_lift _ hi⟩
  · obtain ⟨i, hilt, hi⟩ := mem_index (he pid hx.symm hc)
    exact ⟨i, hEq ▸ hilt, getElem?_append_lift _ hi⟩

theorem sar_append {posts : List Post} {log : List Event} {e : Event}
    (h : ScoredAfterRelease posts log)
    (he : ∀ pid, e = Event.stage2Scored pid → IsCrisisPost posts pid →
      Event.crisisReleased pid ∈ log ∨ Event.crisisResolved pid ∈ log) :
    ScoredAfterRelease posts (log ++ [e]) := by
  unfold ScoredAfterRelease at h ⊢
  intro pid j hj hc
  rcases getElem?_append_single hj with ⟨hlt, hold⟩ | ⟨hEq, hx⟩
  · obtain ⟨i, hij, hres⟩ := h pid j hold hc
    refine ⟨i, hij, ?_⟩
    rcases hres with hres | hres
    · exact Or.inl (getElem?_append_lift _ hres)
    · exact Or.inr (getElem?_append_lift _ hres)
  · rcases he pid hx.symm hc with hm | hm
    · obtain ⟨i, hilt, hi⟩ := mem_index hm
      exact ⟨i, hEq ▸ hilt, Or.inl (getElem?_append_lift _ hi)⟩
    · obtain ⟨i, hilt, hi⟩ := mem_index hm
      exact ⟨i, hEq ▸ hilt, Or.inr (getElem?_append_lift _ hi)⟩

theorem isCrisisPost_map {posts : List Post} {f : Post → Post}
    (hf : ∀ p, (f p).post_id = p.post_id ∧ (f p).content = p.content) (pid : Nat) :
    IsCrisisPost (posts.map f) pid ↔ IsCrisisPost posts pid := by
  constructor
  · rintro ⟨q, hq, hpid, hc⟩
    obtain ⟨p, hp, rfl⟩ := List.mem_map.mp hq
    exact ⟨p, hp, (hf p).1 ▸ hpid, (hf p).2 ▸ hc⟩
  · rintro ⟨p, hp, hpid, hc⟩
    exact ⟨f p, List.mem_map_of_mem f hp, by rw [(hf p).1]; exact hpid,
      by rw [(hf p).2]; exact hc⟩

theorem isCrisisPost_append_noncrisis {posts : List Post} {q : Post}
    (hq : matchesCrisisPhrase q.content = false) (pid : Nat) :
    IsCrisisPost (posts ++ [q]) pid ↔ IsCrisisPost posts pid := by
  constructor
  · rintro ⟨p, hp, hpid, hc⟩
    rcases List.mem_append.mp hp with hm | hm
    · exact ⟨p, hm, hpid, hc⟩
    · simp only [List.mem_singleton] at hm
      subst hm
      rw [hq] at hc
      cases hc
  · rintro ⟨p, hp, hpid, hc⟩
    exact ⟨p, List.mem_append_left _ hp, hpid, hc⟩

theorem setPostState_fields (pid : Nat) (m : ModerationState) (p : Post) :
    (setPostState pid m p).post_id = p.post_id ∧ (setPostState pid m p).content = p.content := by
  unfold setPostState; split <;> simp

theorem scorePost_fields (pid : Nat) (sev : Severity) (p : Post) :
    (scorePost pid sev p).post_id = p.post_id ∧ (scorePost pid sev p).content = p.content := by
  unfold scorePost; split <;> simp

theorem setCrisisState_pid (pid : Nat) (e : EscalationState) (ce : CrisisEvent) :
    (setCrisisState pid e ce).post_id = ce.post_id := by
  unfold setCrisisState; split <;> simp

theorem findPost_spec {s : PipelineState} {pid : Nat} {p : Post}
    (h : findPost s pid = some p) : p ∈ s.posts ∧ p.post_id = pid := by
  refine ⟨List.mem_of_find?_eq_some h, ?_⟩
  have := List.find?_some h
  simpa using this

theorem findCrisis_spec {s : PipelineState} {pid : Nat} {ce : CrisisEvent}
    (h : findCrisis s pid = some ce) : ce ∈ s.crisisEvents ∧ ce.post_id = pid := by
  refine ⟨List.mem_of_find?_eq_some h, ?_⟩
  have := List.find?_some h
  simpa using this

theorem postExists_false_spec {s : PipelineState} {pid : Nat}
    (h : postExists s pid = false) : ∀ p ∈ s.posts, p.post_id ≠ pid := by
  intro p hp hEq
  unfold postExists at h
  rw [List.any_eq_false] at h
  exact h p hp (by simp [hEq])

theorem existsPid_map_lift {posts : List Post} {f : Post → Post}
    (hf : ∀ p, (f p).post_id = p.post_id) {pid : Nat}
    (h : ∃ p ∈ posts, p.post_id = pid) : ∃ p ∈ posts.map f, p.post_id = pid := by
  obtain ⟨p, hp, hpid⟩ := h
  exact ⟨f p, List.mem_map_of_mem f hp, by rw [hf p]; exact hpid⟩

theorem uniq_map {posts : List Post} {f : Post → Post}
    (hf : ∀ p, (f p).post_id = p.post_id)
    (h : ∀ p ∈ posts, ∀ q ∈ posts, p.post_id = q.post_id → p = q) :
    ∀ p ∈ posts.map f, ∀ q ∈ posts.map f, p.post_id = q.post_id → p = q := by
  intro p hp q hq hpq
  obtain ⟨p0, hp0, rfl⟩ := List.mem_map.mp hp
  obtain ⟨q0, hq0, rfl⟩ := List.mem_map.mp hq
  rw [hf p0, hf q0] at hpq
  rw [h p0 hp0 q0 hq0 hpq]

theorem qad_submit_crisis {posts : List Post} {log : List Event} {newP : Post}
    (h : QueueAfterDetect posts log)
    (hqr : ∀ (pid : Nat), Event.queueItemCreated pid ∈ log → ∃ p ∈ posts, p.post_id = pid)
    (hnew : ∀ p ∈ posts, p.post_id ≠ newP.post_id) :
    QueueAfterDetect (posts ++ [newP]) (log ++ [Event.crisisDetected newP.post_id]) := by
  unfold QueueAfterDetect at h ⊢
  intro pid j hj hc
  rcases getElem?_append_single hj with ⟨hlt, hold⟩ | ⟨hEq, hx⟩
  · obtain ⟨p0, hp0, hp0pid⟩ := hqr pid (List.getElem?_mem hold)
    rcases hc with ⟨q, hq, hqpid, hqc⟩
    rcases List.mem_append.mp hq with hm | hm
    · obtain ⟨i, hij, hi⟩ := h pid j hold ⟨q, hm, hqpid, hqc⟩
      exact ⟨i, hij, getElem?_append_lift _ hi⟩
    · simp only [List.mem_singleton] at hm
      subst hm
      exact absurd (hp0pid.trans hqpid.symm) (hnew p0 hp0)
  · simp at hx

theorem sar_submit_crisis {posts : List Post} {log : List Event} {newP : Post}
    (h : ScoredAfterRelease posts log)
    (hsr : ∀ (pid : Nat), Event.stage2Scored pid ∈ log → ∃ p ∈ posts, p.post_id = pid)
    (hnew : ∀ p ∈ posts, p.post_id ≠ newP.post_id) :
    ScoredAfterRelease (posts ++ [newP]) (log ++ [Event.crisisDetected newP.post_id]) := by
  unfold ScoredAfterRelease at h ⊢
  intro pid j hj hc
  rcases getElem?_append_single hj with ⟨hlt, hold⟩ | ⟨hEq, hx⟩
  · obtain ⟨p0, hp0, hp0pid⟩ := hsr pid (List.getElem?_mem hold)
    rcases hc with ⟨q, hq, hqpid, hqc⟩
    rcases List.mem_append.mp hq with hm | hm
    · obtain ⟨i, hij, hres⟩ := h pid j hold ⟨q, hm, hqpid, hqc⟩
      refine ⟨i, hij, ?_⟩
      rcases hres with hres | hres
      · exact Or.inl (getElem?_append_lift _ hres)
      · exact Or.inr (getElem?_append_lift _ hres)
    · simp only [List.mem_singleton] at hm
      subst hm
      exact absurd (hp0pid.trans hqpid.symm) (hnew p0 hp0)
  · simp at hx

theorem inv_initial : PipelineInv initialPipelineState := by
  refine ⟨?_, ?_, ?_, ?_, ?_, ?_, ?_, ?_⟩ <;>
    simp [initialPipelineState, QueueAfterDetect, ScoredAfterRelease]

theorem inv_submit (s : PipelineState) (pid : Nat) (content : String) (now : Nat)
    (h : PipelineInv s) :
    PipelineInv (pipelineStep s (PipelineAction.submit pid content now)) := by
  cases hex : postExists s pid with
  | true => simpa only [pipelineStep, hex, if_true] using h
  | false =>
    have hnew : ∀ p ∈ s.posts, p.post_id ≠ pid := postExists_false_spec hex
    cases hm : matchesCrisisPhrase content with
    | true =>
      simp only [pipelineStep, hex, hm, Bool.false_eq_true, if_false, if_true]
      refine ⟨?_, ?_, ?_, ?_, ?_, ?_, ?_, ?_⟩
      · intro p hp q hq hpq
        rcases List.mem_append.mp hp with hp' | hp' <;>
          rcases List.mem_append.mp hq with hq' | hq'
        · exact h.uniq p hp' q hq' hpq
        · simp only [List.mem_singleton] at hq'
          subst hq'
          exact absurd hpq (hnew p hp')
        · simp only [List.mem_singleton] at hp'
          subst hp'
          exact absurd hpq.symm (hnew q hq')
        · simp only [List.mem_singleton] at hp' hq'
          rw [hp', hq']
      · intro ce hce
        rcases List.mem_append.mp hce with hce' | hce'
        · obtain ⟨p, hp, hppid⟩ := h.crisisRef ce hce'
          exact ⟨p, List.mem_append_left _ hp, hppid⟩
        · simp only [List.mem_singleton] at hce'
          subst hce'
          exact ⟨⟨pid, content, .escalated, .none⟩, List.mem_append_right _ (by simp), rfl⟩
      · intro pid' hmem
        rcases List.mem_append.mp hmem with hmem' | hmem'
        · obtain ⟨p, hp, hppid⟩ := h.queueRef pid' hmem'
          exact ⟨p, List.mem_append_left _ hp, hppid⟩
        · simp at hmem'
      · intro pid' hmem
        rcases List.mem_append.mp hmem with hmem' | hmem'
        · obtain ⟨p, hp, hppid⟩ := h.scoredRef pid' hmem'
          exact ⟨p, List.mem_append_left _ hp, hppid⟩
        · simp at hmem'
      · intro p hp hcp
        rcases List.mem_append.mp hp with hp' | hp'
        · exact List.mem_append_left _ (h.detectLogged p hp' hcp)
        · simp only [List.mem_singleton] at hp'
          subst hp'
          exact List.mem_append_right _ (by simp)
      · intro p hp hcp
        rcases List.mem_append.mp hp with hp' | hp'
        · rcases h.heldOrReleased p hp' hcp with hs | hs | hs
          · exact Or.inl hs
          · exact Or.inr (Or.inl (List.mem_append_left _ hs))
          · exact Or.inr (Or.inr (List.mem_append_left _ hs))
        · simp only [List.mem_singleton] at hp'
          subst hp'
          exact Or.inl rfl
      · exact qad_submit_crisis h.qad h.queueRef hnew
      · exact sar_submit_crisis h.sar h.scoredRef hnew
    | false =>
      simp only [pipelineStep, hex, hm, Bool.false_eq_true, if_false, if_true]
      have hiff : ∀ (pid' : Nat),
          IsCrisisPost (s.posts ++ [⟨pid, content, .stage1Passed, .none⟩]) pid' →
            IsCrisisPost s.posts pid' :=
        fun pid' => (isCrisisPost_append_noncrisis hm pid').mp
      refine ⟨?_, ?_, ?_, ?_, ?_, ?_, ?_, ?_⟩
      · intro p hp q hq hpq
        rcases List.mem_append.mp hp with hp' | hp' <;>
          rcases List.mem_append.mp hq with hq' | hq'
        · exact h.uniq p hp' q hq' hpq
        · simp only [List.mem_singleton] at hq'
          subst hq'
          exact absurd hpq (hnew p hp')
        · simp only [List.mem_singleton] at hp'
          subst hp'
          exact absurd hpq.symm (hnew q hq')
        · simp only [List.mem_singleton] at hp' hq'
          rw [hp', hq']
      · intro ce hce
        obtain ⟨p, hp, hppid⟩ := h.crisisRef ce hce
        exact ⟨p, List.mem_append_left _ hp, hppid⟩
      · intro pid' hmem
        obtain ⟨p, hp, hppid⟩ := h.queueRef pid' hmem
        exact ⟨p, List.mem_append_left _ hp, hppid⟩
      · intro pid' hmem
        obtain ⟨p, hp, hppid⟩ := h.scoredRef pid' hmem
        exact ⟨p, List.mem_append_left _ hp, hppid⟩
      · intro p hp hcp
        rcases List.mem_append.mp hp with hp' | hp'
        · exact h.detectLogged p hp' hcp
        · simp only [List.mem_singleton] at hp'
          subst hp'
          rw [hm] at hcp
          cases hcp
      · intro p hp hcp
        rcases List.mem_append.mp hp with hp' | hp'
        · exact h.heldOrReleased p hp' hcp
        · simp only [List.mem_singleton] at hp'
          subst hp'
          rw [hm] at hcp
          cases hcp
      · exact qad_mono hiff h.qad
      · exact sar_mono hiff h.sar

theorem inv_runStage2 (s : PipelineState) (pid : Nat) (sev : Severity)
    (h : PipelineInv s) :
    PipelineInv (pipelineStep s (PipelineAction.runStage2 pid sev)) := by
  rcases hfp : findPost s pid with _ | p
  · simpa only [pipelineStep, hfp] using h
  · obtain ⟨hpmem, hppid⟩ := findPost_spec hfp
    cases hst : p.moderation_state == ModerationState.stage1Passed with
    | false => simpa only [pipelineStep, hfp, hst, Bool.false_eq_true, if_false] using h
    | true =>
      have hstate : p.moderation_state = ModerationState.stage1Passed := by simpa using hst
      simp only [pipelineStep, hfp, hst, if_true]
      have hfields := scorePost_fields pid sev
      have hpid : ∀ q : Post, (scorePost pid sev q).post_id = q.post_id :=
        fun q => (hfields q).1
      refine ⟨?_, ?_, ?_, ?_, ?_, ?_, ?_, ?_⟩
      · exact uniq_map hpid h.uniq
      · intro ce hce
        exact existsPid_map_lift hpid (h.crisisRef ce hce)
      · intro pid' hmem
        rcases List.mem_append.mp hmem with hmem' | hmem'
        · exact existsPid_map_lift hpid (h.queueRef pid' hmem')
        · simp at hmem'
      · intro pid' hmem
        rcases List.mem_append.mp hmem with hmem' | hmem'
        · exact existsPid_map_lift hpid (h.scoredRef pid' hmem')
        · simp only [List.mem_singleton] at hmem'
          injection hmem' with h1
          subst h1
          exact existsPid_map_lift hpid ⟨p, hpmem, hppid⟩
      · intro q hq hcq
        obtain ⟨q0, hq0, rfl⟩ := List.mem_map.mp hq
        rw [(hfields q0).2] at hcq
        rw [hpid q0]
        exact List.mem_append_left _ (h.detectLogged q0 hq0 hcq)
      · intro q hq hcq
        obtain ⟨q0, hq0, rfl⟩ := List.mem_map.mp hq
        rw [(hfields q0).2] at hcq
        by_cases hq0pid : q0.post_id = pid
        · have hq0p : q0 = p := h.uniq q0 hq0 p hpmem (hq0pid.trans hppid.symm)
          subst hq0p
          rcases h.heldOrReleased q0 hq0 hcq with hs | hs | hs
          · rw [hstate] at hs
            simp at hs
          · exact Or.inr (Or.inl (by rw [hpid q0]; exact List.mem_append_left _ hs))
          · exact Or.inr (Or.inr (by rw [hpid q0]; exact List.mem_append_left _ hs))
        · have hid : scorePost pid sev q0 = q0 := by simp [scorePost, hq0pid]
          rw [hid]
          rcases h.heldOrReleased q0 hq0 hcq with hs | hs | hs
          · exact Or.inl hs
          · exact Or.inr (Or.inl (List.mem_append_left _ hs))
          · exact Or.inr (Or.inr (List.mem_append_left _ hs))
      · refine qad_append (qad_mono (fun pid' => (isCrisisPost_map hfields pid').mp) h.qad) ?_
        intro pid' hx
        simp at hx
      · refine sar_append (sar_mono (fun pid' => (isCrisisPost_map hfields pid').mp) h.sar) ?_
        intro pid' hx hc
        injection hx with h1
        rw [← h1] at hc ⊢
        have hc' : IsCrisisPost s.posts pid := (isCrisisPost_map hfields pid).mp hc
        obtain ⟨q, hq, hqpid, hqc⟩ := hc'
        have hqp : q = p := h.uniq q hq p hpmem (hqpid.trans hppid.symm)
        rcases h.heldOrReleased q hq hqc with hs | hs | hs
        · rw [hqp, hstate] at hs
          simp at hs
        · exact Or.inl (hqpid ▸ hs)
        · exact Or.inr (hqpid ▸ hs)

theorem inv_routeToQueue (s : PipelineState) (pid : Nat) (now : Nat)
    (h : PipelineInv s) :
    PipelineInv (pipelineStep s (PipelineAction.routeToQueue pid now)) := by
  rcases hfp : findPost s pid with _ | p
  · simpa only [pipelineStep, hfp] using h
  · obtain ⟨hpmem, hppid⟩ := findPost_spec hfp
    cases hst : p.moderation_state == ModerationState.stage2Scored with
    | false => simpa only [pipelineStep, hfp, hst, Bool.false_eq_true, if_false] using h
    | true =>
      have hstate : p.moderation_state = ModerationState.stage2Scored := by simpa using hst
      rcases hr : Route pid p.severity [] now with _ | item
      · simpa only [pipelineStep, hfp, hst, if_true, hr] using h
      · simp only [pipelineStep, hfp, hst, if_true, hr]
        have hfields := setPostState_fields pid ModerationState.queued
        have hpid : ∀ q : Post,
            (setPostState pid ModerationState.queued q).post_id = q.post_id :=
          fun q => (hfields q).1
        refine ⟨?_, ?_, ?_, ?_, ?_, ?_, ?_, ?_⟩
        · exact uniq_map hpid h.uniq
        · intro ce hce
          exact existsPid_map_lift hpid (h.crisisRef ce hce)
        · intro pid' hmem
          rcases List.mem_append.mp hmem with hmem' | hmem'
          · exact existsPid_map_lift hpid (h.queueRef pid' hmem')
          · simp only [List.mem_singleton] at hmem'
            injection hmem' with h1
            rw [h1]
            exact existsPid_map_lift hpid ⟨p, hpmem, hppid⟩
        · intro pid' hmem
          rcases List.mem_append.mp hmem with hmem' | hmem'
          · exact existsPid_map_lift hpid (h.scoredRef pid' hmem')
          · simp at hmem'
        · intro q hq hcq
          obtain ⟨q0, hq0, rfl⟩ := List.mem_map.mp hq
          rw [(hfields q0).2] at hcq
          rw [hpid q0]
          exact List.mem_append_left _ (h.detectLogged q0 hq0 hcq)
        · intro q hq hcq
          obtain ⟨q0, hq0, rfl⟩ := List.mem_map.mp hq
          rw [(hfields q0).2] at hcq
          by_cases hq0pid : q0.post_id = pid
          · have hq0p : q0 = p := h.uniq q0 hq0 p hpmem (hq0pid.trans hppid.symm)
            rcases h.heldOrReleased q0 hq0 hcq with hs | hs | hs
            · rw [hq0p, hstate] at hs
              simp at hs
            · exact Or.inr (Or.inl (by rw [hpid q0]; exact List.mem_append_left _ hs))
            · exact Or.inr (Or.inr (by rw [hpid q0]; exact List.mem_append_left _ hs))
          · have hid : setPostState pid ModerationState.queued q0 = q0 := by
              simp [setPostState, hq0pid]
            rw [hid]
            rcases h.heldOrReleased q0 hq0 hcq with hs | hs | hs
            · exact Or.inl hs
            · exact Or.inr (Or.inl (List.mem_append_left _ hs))
            · exact Or.inr (Or.inr (List.mem_append_left _ hs))
        · refine qad_append (qad_mono (fun pid' => (isCrisisPost_map hfields pid').mp) h.qad) ?_
          intro pid' hx hc
          injection hx with h1
          rw [← h1] at hc ⊢
          have hc' : IsCrisisPost s.posts pid := (isCrisisPost_map hfields pid).mp hc
          obtain ⟨q, hq, hqpid, hqc⟩ := hc'
          exact hqpid ▸ h.detectLogged q hq hqc
        · refine sar_append (sar_mono (fun pid' => (isCrisisPost_map hfields pid').mp) h.sar) ?_
          intro pid' hx
          simp at hx

theorem inv_ackTimeout (s : PipelineState) (pid : Nat) (now : Nat)
    (h : PipelineInv s) :
    PipelineInv (pipelineStep s (PipelineAction.acknowledgeTimeout pid now)) := by
  rcases hfc : findCrisis s pid with _ | ce
  · simpa only [pipelineStep, hfc] using h
  · obtain ⟨hcmem, hcpid⟩ := findCrisis_spec hfc
    cases hst : ce.escalation_state == EscalationState.detected with
    | false => simpa only [pipelineStep, hfc, hst, Bool.false_eq_true, if_false] using h
    | true =>
      rcases hr : Route pid Severity.critical ["crisis"] now with _ | item
      · simpa only [pipelineStep, hfc, hst, if_true, hr] using h
      · simp only [pipelineStep, hfc, hst, if_true, hr]
        refine ⟨h.uniq, ?_, ?_, ?_, ?_, ?_, ?_, ?_⟩
        · intro ce' hce'
          obtain ⟨ce0, hce0, rfl⟩ := List.mem_map.mp hce'
          rw [setCrisisState_pid]
          exact h.crisisRef ce0 hce0
        · intro pid' hmem
          rcases List.mem_append.mp hmem with hmem' | hmem'
          · exact h.queueRef pid' hmem'
          · simp only [List.mem_singleton] at hmem'
            injection hmem' with h1
            rw [h1, ← hcpid]
            exact h.crisisRef ce hcmem
        · intro pid' hmem
          rcases List.mem_append.mp hmem with hmem' | hmem'
          · exact h.scoredRef pid' hmem'
          · simp at hmem'
        · intro p hp hcp
          exact List.mem_append_left _ (h.detectLogged p hp hcp)
        · intro p hp hcp
          rcases h.heldOrReleased p hp hcp with hs | hs | hs
          · exact Or.inl hs
          · exact Or.inr (Or.inl (List.mem_append_left _ hs))
          · exact Or.inr (Or.inr (List.mem_append_left _ hs))
        · refine qad_append h.qad ?_
          intro pid' hx hc
          injection hx with h1
          rw [← h1] at hc ⊢
          obtain ⟨q, hq, hqpid, hqc⟩ := hc
          exact hqpid ▸ h.detectLogged q hq hqc
        · refine sar_append h.sar ?_
          intro pid' hx
          simp at hx

theorem inv_releaseCrisis (s : PipelineState) (pid : Nat)
    (h : PipelineInv s) :
    PipelineInv (pipelineStep s (PipelineAction.releaseCrisis pid)) := by
  rcases hfc : findCrisis s pid with _ | ce
  · simpa only [pipelineStep, hfc] using h
  · cases hst : ce.escalation_state == EscalationState.resolved with
    | true => simpa only [pipelineStep, hfc, hst, if_true] using h
    | false =>
      simp only [pipelineStep, hfc, hst, Bool.false_eq_true, if_false]
      have hfields := setPostState_fields pid ModerationState.stage1Passed
      have hpid : ∀ q : Post,
          (setPostState pid ModerationState.stage1Passed q).post_id = q.post_id :=
        fun q => (hfields q).1
      refine ⟨?_, ?_, ?_, ?_, ?_, ?_, ?_, ?_⟩
      · exact uniq_map hpid h.uniq
      · intro ce' hce'
        obtain ⟨ce0, hce0, rfl⟩ := List.mem_map.mp hce'
        rw [setCrisisState_pid]
        exact existsPid_map_lift hpid (h.crisisRef ce0 hce0)
      · intro pid' hmem
        rcases List.mem_append.mp hmem with hmem' | hmem'
        · exact existsPid_map_lift hpid (h.queueRef pid' hmem')
        · simp at hmem'
      · intro pid' hmem
        rcases List.mem_append.mp hmem with hmem' | hmem'
        · exact existsPid_map_lift hpid (h.scoredRef pid' hmem')
        · simp at hmem'
      · intro q hq hcq
        obtain ⟨q0, hq0, rfl⟩ := List.mem_map.mp hq
        rw [(hfields q0).2] at hcq
        rw [hpid q0]
        exact List.mem_append_left _ (h.detectLogged q0 hq0 hcq)
      · intro q hq hcq
        obtain ⟨q0, hq0, rfl⟩ := List.mem_map.mp hq
        rw [(hfields q0).2] at hcq
        by_cases hq0pid : q0.post_id = pid
        · refine Or.inr (Or.inl ?_)
          rw [hpid q0, hq0pid]
          exact List.mem_append_right _ (by simp)
        · have hid : setPostState pid ModerationState.stage1Passed q0 = q0 := by
            simp [setPostState, hq0pid]
          rw [hid]
          rcases h.heldOrReleased q0 hq0 hcq with hs | hs | hs
          · exact Or.inl hs
          · exact Or.inr (Or.inl (List.mem_append_left _ hs))
          · exact Or.inr (Or.inr (List.mem_append_left _ hs))
      · refine qad_append (qad_mono (fun pid' => (isCrisisPost_map hfields pid').mp) h.qad) ?_
        intro pid' hx
        simp at hx
      · refine sar_append (sar_mono (fun pid' => (isCrisisPost_map hfields pid').mp) h.sar) ?_
        intro pid' hx
        simp at hx

theorem inv_resolveCrisis (s : PipelineState) (pid : Nat) (approve : Bool)
    (h : PipelineInv s) :
    PipelineInv (pipelineStep s (PipelineAction.resolveCrisis pid approve)) := by
  rcases hfc : findCrisis s pid with _ | ce
  · simpa only [pipelineStep, hfc] using h
  · cases hst : ce.escalation_state == EscalationState.resolved with
    | true => simpa only [pipelineStep, hfc, hst, if_true] using h
    | false =>
      simp only [pipelineStep, hfc, hst, Bool.false_eq_true, if_false]
      have hfields := setPostState_fields pid
        (if approve then ModerationState.approved else ModerationState.rejected)
      have hpid : ∀ q : Post,
          (setPostState pid
            (if approve then ModerationState.approved else ModerationState.rejected)
            q).post_id = q.post_id :=
        fun q => (hfields q).1
      refine ⟨?_, ?_, ?_, ?_, ?_, ?_, ?_, ?_⟩
      · exact uniq_map hpid h.uniq
      · intro ce' hce'
        obtain ⟨ce0, hce0, rfl⟩ := List.mem_map.mp hce'
        rw [setCrisisState_pid]
        exact existsPid_map_lift hpid (h.crisisRef ce0 hce0)
      · intro pid' hmem
        rcases List.mem_append.mp hmem with hmem' | hmem'
        · exact existsPid_map_lift hpid (h.queueRef pid' hmem')
        · simp at hmem'
      · intro pid' hmem
        rcases List.mem_append.mp hmem with hmem' | hmem'
        · exact existsPid_map_lift hpid (h.scoredRef pid' hmem')
        · simp at hmem'
      · intro q hq hcq
        obtain ⟨q0, hq0, rfl⟩ := List.mem_map.mp hq
        rw [(hfields q0).2] at hcq
        rw [hpid q0]
        exact List.mem_append_left _ (h.detectLogged q0 hq0 hcq)
      · intro q hq hcq
        obtain ⟨q0, hq0, rfl⟩ := List.mem_map.mp hq
        rw [(hfields q0).2] at hcq
        by_cases hq0pid : q0.post_id = pid
        · refine Or.inr (Or.inr ?_)
          rw [hpid q0, hq0pid]
          exact List.mem_append_right _ (by simp)
        · have hid : setPostState pid
              (if approve then ModerationState.approved else ModerationState.rejected)
              q0 = q0 := by
            simp [setPostState, hq0pid]
          rw [hid]
          rcases h.heldOrReleased q0 hq0 hcq with hs | hs | hs
          · exact Or.inl hs
          · exact Or.inr (Or.inl (List.mem_append_left _ hs))
          · exact Or.inr (Or.inr (List.mem_append_left _ hs))
      · refine qad_append (qad_mono (fun pid' => (isCrisisPost_map hfields pid').mp) h.qad) ?_
        intro pid' hx
        simp at hx
      · refine sar_append (sar_mono (fun pid' => (isCrisisPost_map hfields pid').mp) h.sar) ?_
        intro pid' hx
        simp at hx

theorem inv_preserved (s : PipelineState) (a : PipelineAction)
    (h : PipelineInv s) : PipelineInv (pipelineStep s a) := by
  cases a with
  | submit pid content now => exact inv_submit s pid content now h
  | runStage2 pid sev => exact inv_runStage2 s pid sev h
  | routeToQueue pid now => exact inv_routeToQueue s pid now h
  | acknowledgeTimeout pid now => exact inv_ackTimeout s pid now h
  | releaseCrisis pid => exact inv_releaseCrisis s pid h
  | resolveCrisis pid approve => exact inv_resolveCrisis s pid approve h

theorem inv_run (acts : List PipelineAction) : PipelineInv (runPipeline acts) := by
  unfold runPipeline
  suffices hgen : ∀ (s : PipelineState), PipelineInv s →
      PipelineInv (acts.foldl pipelineStep s) from hgen _ inv_initial
  induction acts with
  | nil => exact fun s hs => hs
  | cons a rest ih => exact fun s hs => ih (pipelineStep s a) (inv_preserved s a hs)

/-- C2: in every run of the pipeline, for a stored post whose content
matches a known high-recall crisis phrase, any QueueItem creation for
that post is strictly preceded in the event log by the creation of its
CrisisEvent in state `detected`, and any Stage-2 scoring of that post is
strictly preceded by an explicit release or resolution of the crisis
hold. -/
theorem crisis_detected_before_queue_and_stage2
    (acts : List PipelineAction) (pid j : Nat)
    (hc : IsCrisisPost (runPipeline acts).posts pid) :
    ((runPipeline acts).log[j]? = some (Event.queueItemCreated pid) →
      ∃ i, i < j ∧ (runPipeline acts).log[i]? = some (Event.crisisDetected pid)) ∧
    ((runPipeline acts).log[j]? = some (Event.stage2Scored pid) →
      ∃ i, i < j ∧ ((runPipeline acts).log[i]? = some (Event.crisisReleased pid) ∨
                    (runPipeline acts).log[i]? = some (Event.crisisResolved pid))) := by
  have hinv := inv_run acts
  exact ⟨fun hj => hinv.qad pid j hj hc, fun hj => hinv.sar pid j hj hc⟩

theorem crisis_detected_before_queue_and_stage2_witness :
    (runPipeline demoCrisisActs).log[1]? = some (Event.queueItemCreated 1) ∧
    IsCrisisPost (runPipeline demoCrisisActs).posts 1 ∧
    (((runPipeline demoCrisisActs).log[1]? = some (Event.queueItemCreated 1) →
       ∃ i, i < 1 ∧ (runPipeline demoCrisisActs).log[i]? = some (Event.crisisDetected 1)) ∧
     ((runPipeline demoCrisisActs).log[1]? = some (Event.stage2Scored 1) →
       ∃ i, i < 1 ∧ ((runPipeline demoCrisisActs).log[i]? = some (Event.crisisReleased 1) ∨
                     (runPipeline demoCrisisActs).log[i]? = some (Event.crisisResolved 1)))) :=
  ⟨by decide, by decide,
   crisis_detected_before_queue_and_stage2 demoCrisisActs 1 1 (by decide)⟩

/-! ## C4 — SLA deadline derived from severity -/

/-- C4: the QueueItem produced by the Queue Router is stamped with
`enqueued_at = now` and an `sla_deadline` of exactly `enqueued_at` plus
1 hour for critical severity, 4 hours for high, 24 hours for medium and
72 hours for low. -/
theorem sla_deadline_by_severity (pid : Nat) (signals : List String) (now : Nat) :
    ((Route pid Severity.critical signals now).map
        (fun i => (i.enqueued_at, i.sla_deadline)) = some (now, now + 3600)) ∧
    ((Route pid Severity.high signals now).map
        (fun i => (i.enqueued_at, i.sla_deadline)) = some (now, now + 4 * 3600)) ∧
    ((Route pid Severity.medium signals now).map
        (fun i => (i.enqueued_at, i.sla_deadline)) = some (now, now + 24 * 3600)) ∧
    ((Route pid Severity.low signals now).map
        (fun i => (i.enqueued_at, i.sla_deadline)) = some (now, now + 72 * 3600)) :=
  ⟨rfl, rfl, rfl, rfl⟩

/-- C5: the 11th submission inside one hour from the same anonymous_id
(10 earlier ones in the window, limit 10/hour) returns
`RateLimitExceeded`, creates no Post and leaves the whole store
unchanged. -/
theorem rate_limit_rejects_eleventh_submission
    (st : RateLimitedStore) (anon content : String) (pid now : Nat)
    (h : recentSubmissionCount st anon now = 10) :
    submitNewPost st anon content pid now = (st, SubmitOutcome.rateLimitExceeded) := by
  unfold submitNewPost
  rw [h]
  simp [newPostLimit]

theorem rate_limit_rejects_eleventh_submission_witness :
    recentSubmissionCount demoRateStore "anon_a" 100 = 10 ∧
    submitNewPost demoRateStore "anon_a" "feeling low today" 11 100 =
      (demoRateStore, SubmitOutcome.rateLimitExceeded) :=
  ⟨by decide,
   rate_limit_rejects_eleventh_submission demoRateStore "anon_a" "feeling low today" 11 100
     (by decide)⟩

/-- C7: after `PurgeIdentity(anon)` no Post of that anonymous_id and no
RiskAssessment or QueueItem referencing one of its post_ids remains, and
a subsequent `ExportUserData(anon)` returns the empty result. -/
theorem purge_identity_removes_all_references (st : ContentStore) (anon : String) :
    (∀ p ∈ (PurgeIdentity st anon).posts, p.anonymous_id ≠ anon) ∧
    (∀ a ∈ (PurgeIdentity st anon).assessments, a.post_id ∉ postIdsOf st anon) ∧
    (∀ q ∈ (PurgeIdentity st anon).queueItems, q.post_id ∉ postIdsOf st anon) ∧
    ExportUserData (PurgeIdentity st anon) anon = ([], []) := by
  refine ⟨?_, ?_, ?_, ?_⟩
  · intro p hp
    simp only [PurgeIdentity, List.mem_filter, Bool.not_eq_eq_eq_not, Bool.not_true,
      beq_eq_false_iff_ne, ne_eq] at hp
    exact hp.2
  · intro a ha
    simp only [PurgeIdentity, List.mem_filter, Bool.not_eq_eq_eq_not, Bool.not_true] at ha
    simpa using ha.2
  · intro q hq
    simp only [PurgeIdentity, List.mem_filter, Bool.not_eq_eq_eq_not, Bool.not_true] at hq
    simpa using hq.2
  · have hposts : (PurgeIdentity st anon).posts.filter
        (fun p => p.anonymous_id == anon) = [] := by
      rw [List.filter_eq_nil_iff]
      intro p hp
      simp only [PurgeIdentity, List.mem_filter, Bool.not_eq_eq_eq_not, Bool.not_true,
        beq_eq_false_iff_ne, ne_eq] at hp
      simp [hp.2]
    have hpids : postIdsOf (PurgeIdentity st anon) anon = [] := by
      unfold postIdsOf
      rw [hposts]
      rfl
    unfold ExportUserData
    rw [hpids, hposts]
    simp

theorem purge_identity_removes_all_references_witness :
    (PurgeIdentity demoContentStore "anon_a").posts = [⟨2, "anon_b", "a calmer week"⟩] ∧
    (PurgeIdentity demoContentStore "anon_a").queueItems = [] ∧
    ExportUserData (PurgeIdentity demoContentStore "anon_a") "anon_a" = ([], []) :=
  ⟨by decide, by decide,
   (purge_identity_removes_all_references demoContentStore "anon_a").2.2.2⟩

/-- C3: a post returned by `find_similar` or present in a public listing
always has at least K distinct anonymous_ids in its
{tags, time bucket, locale} group, and a stored post failing that check
is withheld from both surfaces while remaining stored. -/
theorem k_anonymity_gates_public_surfaces (st : DiscoveryIndex)
    (sim : DiscoveryPost → Nat) (threshold : Nat) (p : DiscoveryPost) :
    (p ∈ find_similar st sim threshold → st.k ≤ groupAnonCount st p) ∧
    (p ∈ publicListing st → st.k ≤ groupAnonCount st p) ∧
    (p ∈ st.posts → ¬ st.k ≤ groupAnonCount st p →
      p ∉ find_similar st sim threshold ∧ p ∉ publicListing st ∧ p ∈ st.posts) := by
  have hidx : ∀ q, q ∈ indexedPosts st → st.k ≤ groupAnonCount st q := by
    intro q hq
    rw [indexedPosts, List.mem_filter] at hq
    have := hq.2
    rw [Bool.and_eq_true] at this
    exact of_decide_eq_true this.2
  refine ⟨?_, ?_, ?_⟩
  · intro hp
    rw [find_similar, List.mem_filter] at hp
    exact hidx p ((List.mem_filter.mp (List.take_subset _ _ hp.1)).1)
  · intro hp
    exact hidx p hp
  · intro hmem hfail
    have hnotidx : p ∉ indexedPosts st := fun hin => hfail (hidx p hin)
    refine ⟨?_, hnotidx, hmem⟩
    intro hp
    rw [find_similar, List.mem_filter] at hp
    exact hnotidx (List.mem_filter.mp (List.take_subset _ _ hp.1)).1

theorem k_anonymity_gates_public_surfaces_witness :
    demoSmallGroupPost ∈ demoDiscoveryIndex.posts ∧
    ¬ demoDiscoveryIndex.k ≤ groupAnonCount demoDiscoveryIndex demoSmallGroupPost ∧
    (demoSmallGroupPost ∉ find_similar demoDiscoveryIndex (fun _ => 9) 1 ∧
     demoSmallGroupPost ∉ publicListing demoDiscoveryIndex ∧
     demoSmallGroupPost ∈ demoDiscoveryIndex.posts) :=
  ⟨by decide, by decide,
   (k_anonymity_gates_public_surfaces demoDiscoveryIndex (fun _ => 9) 1
     demoSmallGroupPost).2.2 (by decide) (by decide)⟩

theorem piiPlaceholder_of_placeholder {w pl : List Char}
    (hp : piiPlaceholder w = some pl) : piiPlaceholder pl = none := by
  unfold piiPlaceholder at hp
  split_ifs at hp <;> (injection hp with h1; rw [← h1]; decide)

theorem scrubToken_idem (w : List Char) : scrubToken (scrubToken w) = scrubToken w := by
  unfold scrubToken
  rcases hp : piiPlaceholder w with _ | pl
  · simp [hp]
  · simp [hp, piiPlaceholder_of_placeholder hp]

theorem placeholder_no_space {w pl : List Char}
    (hp : piiPlaceholder w = some pl) : ' ' ∉ pl := by
  unfold piiPlaceholder at hp
  split_ifs at hp <;> (injection hp with h1; rw [← h1]; decide)

theorem scrubToken_no_space {w : List Char} (hw : ' ' ∉ w) : ' ' ∉ scrubToken w := by
  unfold scrubToken
  rcases hp : piiPlaceholder w with _ | pl
  · simpa using hw
  · simpa using placeholder_no_space hp

theorem splitOnP_no_sat {α : Type} (p : α → Bool) (l : List α) :
    ∀ t ∈ l.splitOnP p, ∀ a ∈ t, p a = false := by
  induction l with
  | nil =>
    intro t ht a ha
    simp only [List.splitOnP_nil, List.mem_singleton] at ht
    subst ht
    simp at ha
  | cons x xs ih =>
    intro t ht a ha
    rw [List.splitOnP_cons] at ht
    cases hx : p x with
    | true =>
      rw [hx] at ht
      simp only [if_true] at ht
      rcases List.mem_cons.mp ht with rfl | ht'
      · simp at ha
      · exact ih t ht' a ha
    | false =>
      rw [hx] at ht
      simp only [Bool.false_eq_true, if_false] at ht
      rcases hsp : xs.splitOnP p with _ | ⟨h0, rest⟩
      · exact absurd hsp (List.splitOnP_ne_nil p xs)
      · rw [hsp] at ht
        simp only [List.modifyHead] at ht
        rcases List.mem_cons.mp ht with rfl | ht'
        · rcases List.mem_cons.mp ha with rfl | ha'
          · exact hx
          · exact ih h0 (by rw [hsp]; exact List.mem_cons_self _ _) a ha'
        · exact ih t (by rw [hsp]; exact List.mem_cons_of_mem _ ht') a ha

theorem splitOn_no_sep {α : Type} [DecidableEq α] (x : α) (l : List α) :
    ∀ t ∈ l.splitOn x, x ∉ t := by
  intro t ht hx
  have := splitOnP_no_sat (fun a => a == x) l t (by simpa [List.splitOn] using ht) x hx
  simp at this

theorem splitOn_ne_nil {α : Type} [DecidableEq α] (x : α) (l : List α) :
    l.splitOn x ≠ [] := by
  simpa [List.splitOn] using List.splitOnP_ne_nil (fun a => a == x) l

/-- C6 core, over character lists: running the redaction pass on already
scrubbed content changes nothing. -/
theorem scrubChars_idem (cs : List Char) : scrubChars (scrubChars cs) = scrubChars cs := by
  unfold scrubChars
  have hnosp : ∀ t ∈ (cs.splitOn ' ').map scrubToken, ' ' ∉ t := by
    intro t ht
    obtain ⟨t0, ht0, rfl⟩ := List.mem_map.mp ht
    exact scrubToken_no_space (splitOn_no_sep ' ' cs t0 ht0)
  have hne : (cs.splitOn ' ').map scrubToken ≠ [] := by
    intro h
    exact splitOn_ne_nil ' ' cs (List.map_eq_nil_iff.mp h)
  rw [List.splitOn_intercalate _ ' ' hnosp hne, List.map_map]
  have hcomp : scrubToken ∘ scrubToken = scrubToken := funext scrubToken_idem
  rw [hcomp]

/-- C6: PII scrubbing is idempotent on every content string. -/
theorem scrub_pii_idempotent (c : String) : scrub_pii (scrub_pii c) = scrub_pii c :=
  congrArg String.mk (scrubChars_idem c.data)

/-- Redaction sanity check: phone number and email replaced by typed
placeholders, surrounding text untouched. -/
theorem scrub_pii_example :
    scrub_pii "call me at 5551234567 or a@b.com please" =
      "call me at [PHONE] or [EMAIL] please" := by
  decide

/-- C8: when the password and confirm-password fields differ, or the
password is shorter than 8 characters, the sign-up submit handler never
invokes `authService.signUp`, records a nonempty validation error, and
its final state update clears loading. -/
theorem signup_validation_blocks_external_call
    (email password confirmPassword : String) (result : SignUpResult)
    (h : password ≠ confirmPassword ∨ password.length < 8) :
    (∀ em pw, SignUpEffect.signUpCall em pw ∉
        signup_handleSubmit email password confirmPassword result) ∧
    (∃ msg, msg ≠ "" ∧ SignUpEffect.setErrorEff msg ∈
        signup_handleSubmit email password confirmPassword result) ∧
    (signup_handleSubmit email password confirmPassword result).getLast? =
      some (SignUpEffect.setLoadingEff false) := by
  by_cases hpc : password ≠ confirmPassword
  · refine ⟨?_, ⟨"Passwords do not match", by decide, ?_⟩, ?_⟩
    · intro em pw hmem
      simp [signup_handleSubmit, hpc] at hmem
    · simp [signup_handleSubmit, hpc]
    · simp [signup_handleSubmit, hpc, List.getLast?]
  · have hlen : password.length < 8 := h.resolve_left (fun hne => hpc hne)
    refine ⟨?_, ⟨"Password must be at least 8 characters long", by decide, ?_⟩, ?_⟩
    · intro em pw hmem
      simp [signup_handleSubmit, hpc, hlen] at hmem
    · simp [signup_handleSubmit, hpc, hlen]
    · simp [signup_handleSubmit, hpc, hlen, List.getLast?]

theorem signup_validation_blocks_external_call_witness :
    (("short12" : String) ≠ "short13" ∨ ("short12" : String).length < 8) ∧
    ((∀ em pw, SignUpEffect.signUpCall em pw ∉
        signup_handleSubmit "a@b.c" "short12" "short13" (SignUpResult.resolved true)) ∧
     (∃ msg, msg ≠ "" ∧ SignUpEffect.setErrorEff msg ∈
        signup_handleSubmit "a@b.c" "short12" "short13" (SignUpResult.resolved true)) ∧
     (signup_handleSubmit "a@b.c" "short12" "short13"
        (SignUpResult.resolved true)).getLast? =
       some (SignUpEffect.setLoadingEff false)) :=
  ⟨by decide,
   signup_validation_blocks_external_call "a@b.c" "short12" "short13"
     (SignUpResult.resolved true) (by decide)⟩

/-- C9: the code input can never hold more than 6 characters, and any
`authService.confirmSignUp` call reachable through the form carries a
code of exactly 6 characters: the disabled submit button makes the
invalid-code submission path unreachable. -/
theorem confirm_code_submission_requires_six_chars
    (email input code0 : String) (st : ConfirmPageState) (result : ConfirmResult) :
    ((confirmSetCode st input).code.length ≤ 6) ∧
    (∀ em, ConfirmEffect.confirmSignUpCall em code0 ∈
        confirm_formSubmit email st result → code0.length = 6) := by
  constructor
  · show (String.mk (input.data.take 6)).length ≤ 6
    have : (String.mk (input.data.take 6)).length = (input.data.take 6).length := rfl
    rw [this, List.length_take]
    exact Nat.min_le_left _ _
  · intro em hmem
    by_cases hd : confirmSubmitDisabled st
    · rw [confirm_formSubmit, if_pos hd] at hmem
      simp at hmem
    · rw [confirm_formSubmit, if_neg hd] at hmem
      have hcode : code0 = st.code := by
        cases result <;> simp [confirm_handleSubmit] at hmem <;> exact hmem.2
      have hlen : st.code.length = 6 := by
        rw [confirmSubmitDisabled, Bool.or_eq_true] at hd
        push_neg at hd
        have h2 : ¬ st.code.length ≠ 6 := by simpa using hd.2
        exact not_ne_iff.mp h2
      rw [hcode, hlen]

theorem confirm_code_submission_requires_six_chars_witness :
    (ConfirmEffect.confirmSignUpCall "u@e.c" "123456" ∈
      confirm_formSubmit "u@e.c" ⟨"123456", false⟩ ConfirmResult.resolved) ∧
    ("123456" : String).length = 6 ∧
    (confirmSetCode ⟨"", false⟩ "1234567890").code.length ≤ 6 :=
  ⟨by decide,
   (confirm_code_submission_requires_six_chars "u@e.c" "x" "123456"
      ⟨"123456", false⟩ ConfirmResult.resolved).2 "u@e.c" (by decide),
   (confirm_code_submission_requires_six_chars "u@e.c" "1234567890" "y"
      ⟨"", false⟩ ConfirmResult.resolved).1⟩

/-- C10: a localStorage write happens only for the accessToken key and
only when `authService.signIn` resolved with success and a truthy
accessToken — localStorage then holding exactly that token; when signIn
throws, the handler performs no outward action at all (no localStorage
write, no redirect), leaves the browser state untouched, sets the error
message from the rejection, and — the handler firing only while not
loading — its net state change is the error message alone. -/
theorem signin_token_write_only_on_success
    (ps : SignInPageState) (bs : BrowserState) (result : SignInResult) :
    (∀ k t, SignInEffect.localStorageSetItem k t ∈ (signin_handleSubmit ps bs result).2 →
      k = "accessToken" ∧ result = SignInResult.resolved true (some t) ∧ t ≠ "" ∧
        (signin_handleSubmit ps bs result).1.2.accessTokenStorage = some t) ∧
    (∀ err, result = SignInResult.thrown err →
      (signin_handleSubmit ps bs result).2 = [] ∧
      (signin_handleSubmit ps bs result).1.2 = bs ∧
      (signin_handleSubmit ps bs result).1.1.errorMsg =
        jsOrElse err "Invalid email or password. Please try again." ∧
      (ps.loading = false →
        (signin_handleSubmit ps bs result).1 =
          ({ ps with errorMsg :=
               jsOrElse err "Invalid email or password. Please try again." }, bs))) := by
  constructor
  · intro k t hmem
    cases result with
    | thrown err => simp [signin_handleSubmit] at hmem
    | resolved success token =>
      cases success with
      | false => simp [signin_handleSubmit] at hmem
      | true =>
        cases token with
        | none => simp [signin_handleSubmit] at hmem
        | some t0 =>
          by_cases ht0 : t0 = ""
          · simp [signin_handleSubmit, ht0] at hmem
          · simp only [signin_handleSubmit, ht0, if_false, List.cons_append,
              List.nil_append] at hmem
            cases hmem with
            | head =>
              refine ⟨rfl, rfl, ht0, ?_⟩
              simp [signin_handleSubmit, jsTruthy, ht0]
            | tail b h2 =>
              have h3 : SignInEffect.localStorageSetItem k t ∈
                  [SignInEffect.routerPush "/dashboard"] := h2
              simp at h3
  · intro err herr
    subst herr
    cases ps with
    | mk e l =>
      refine ⟨rfl, rfl, rfl, ?_⟩
      intro hload
      have hl : l = false := hload
      subst hl
      rfl

theorem signin_token_write_only_on_success_witness :
    (("accessToken" : String) = "accessToken" ∧
     SignInResult.resolved true (some "tok") = SignInResult.resolved true (some "tok") ∧
     ("tok" : String) ≠ "" ∧
     (signin_handleSubmit demoSignInPageState demoBrowserState
        (SignInResult.resolved true (some "tok"))).1.2.accessTokenStorage = some "tok") ∧
    ((signin_handleSubmit demoSignInPageState demoBrowserState
        (SignInResult.thrown (some "NotAuthorizedException"))).2 = [] ∧
     (signin_handleSubmit demoSignInPageState demoBrowserState
        (SignInResult.thrown (some "NotAuthorizedException"))).1.2 = demoBrowserState ∧
     (signin_handleSubmit demoSignInPageState demoBrowserState
        (SignInResult.thrown (some "NotAuthorizedException"))).1.1.errorMsg =
          jsOrElse (some "NotAuthorizedException")
            "Invalid email or password. Please try again." ∧
     (demoSignInPageState.loading = false →
       (signin_handleSubmit demoSignInPageState demoBrowserState
          (SignInResult.thrown (some "NotAuthorizedException"))).1 =
         ({ demoSignInPageState with errorMsg := (jsOrElse (some "NotAuthorizedException") "Invalid email or password. Please try again.") },
          demoBrowserState))) :=
  ⟨(signin_token_write_only_on_success demoSignInPageState demoBrowserState
      (SignInResult.resolved true (some "tok"))).1 "accessToken" "tok" (by decide),
   (signin_token_write_only_on_success demoSignInPageState demoBrowserState
      (SignInResult.thrown (some "NotAuthorizedException"))).2
        (some "NotAuthorizedException") rfl⟩

end LoreEmotion
